import Mathlib

/-!
Verification of the Browser Automation Control Plane (packages/actionbook-rs).

The Rust sources are embedded shallowly: strings are lists of characters,
stateful sessions are explicit state-passing functions, network and process
effects are oracle parameters plus explicit effect lists, and fallible code
returns `Except`.  Every definition is translated from the Rust source file it
names, except for the few marked `Modelled from the spec:` (their module is not
part of the sources in scope).
-/

set_option autoImplicit false

namespace Actionbook

/-- Rust `&str` values, modelled as lists of characters. -/
abbrev Str := List Char

/-! ### Rust `str` primitives -/

/-- Rust `str::trim`: remove leading and trailing whitespace. -/
def rustTrim (s : Str) : Str :=
  ((s.dropWhile Char.isWhitespace).reverse.dropWhile Char.isWhitespace).reverse

/-- Rust `str::contains(pat)` for a literal pattern: substring containment. -/
def containsSeq (pat : Str) : Str → Bool
  | [] => pat.isEmpty
  | c :: rest => pat.isPrefixOf (c :: rest) || containsSeq pat rest

/-- Rust `str::rsplit_once(ch)`: split at the last occurrence of `ch`,
returning the part before and the part after it. -/
def rsplitOnce (ch : Char) : Str → Option (Str × Str)
  | [] => none
  | c :: rest =>
    match rsplitOnce ch rest with
    | some (a, b) => some (c :: a, b)
    | none => if c = ch then some ([], rest) else none

/-- Rust `str::trim_matches(ch)`: strip all leading and trailing
occurrences of the character `ch`. -/
def trimMatchesChar (ch : Char) (s : Str) : Str :=
  ((s.dropWhile (· == ch)).reverse.dropWhile (· == ch)).reverse

/-- Rust `str::eq_ignore_ascii_case` (ASCII-only case folding). -/
def eqIgnoreAsciiCase (a b : Str) : Bool :=
  a.map Char.toLower == b.map Char.toLower

/-- Index of the first occurrence of a literal pattern
(Rust `str::find(pat)`), if any. -/
def findSeqIdx (pat : Str) : Str → Option Nat
  | [] => if pat.isEmpty then some 0 else none
  | c :: rest =>
    if pat.isPrefixOf (c :: rest) then some 0
    else (findSeqIdx pat rest).map (· + 1)

/-- Index of the last occurrence of a character (Rust `str::rfind(ch)`). -/
def rfindCharIdx (ch : Char) : Str → Option Nat
  | [] => none
  | c :: rest =>
    match rfindCharIdx ch rest with
    | some i => some (i + 1)
    | none => if c = ch then some 0 else none

/-- Index of the first occurrence of a character (Rust `str::find(ch)`). -/
def findCharIdx (ch : Char) : Str → Option Nat
  | [] => none
  | c :: rest => if c = ch then some 0 else (findCharIdx ch rest).map (· + 1)

/-! ### Error type

`ActionbookError` is declared in `src/error.rs`, which is not among the
sources in scope; the variants below are the ones constructed by the files in
scope (`Other`, `CdpConnectionFailed`, `BrowserOperation`,
`ElementRefResolution`). Modelled from the spec: the §7 error taxonomy also
names `Unsupported(action, backend)`, included here so claims about it can be
stated. -/
inductive ActionbookError where
  | Other (msg : String)
  | CdpConnectionFailed (msg : String)
  | BrowserOperation (msg : String)
  | ElementRefResolution (selector : Str) (reason : String)
  | Unsupported (action : String) (backend : String)
  deriving DecidableEq, Repr

instance exceptDecEq {ε α : Type} [DecidableEq ε] [DecidableEq α] :
    DecidableEq (Except ε α) := fun x y =>
  match x, y with
  | .ok a, .ok b =>
    if h : a = b then isTrue (by rw [h]) else isFalse (fun hh => h (Except.ok.inj hh))
  | .error a, .error b =>
    if h : a = b then isTrue (by rw [h]) else isFalse (fun hh => h (Except.error.inj hh))
  | .ok _, .error _ => isFalse (fun hh => Except.noConfusion hh)
  | .error _, .ok _ => isFalse (fun hh => Except.noConfusion hh)

/-! ### `commands/browser.rs`: URL normalization -/

/-- `is_host_port_with_optional_path` helper: the character class
`['/', '?', '#']` used for the authority boundary. -/
def isBoundaryChar (c : Char) : Bool := c == '/' || c == '?' || c == '#'

/-- `commands/browser.rs`: `is_host_port_with_optional_path`. -/
def isHostPortWithOptionalPath (input : Str) : Bool :=
  let authority := input.takeWhile (fun c => !isBoundaryChar c)
  if authority.isEmpty then false
  else
    match rsplitOnce ':' authority with
    | some (host, port) =>
      !host.isEmpty && !port.isEmpty && port.all Char.isDigit
    | none => false

/-- `commands/browser.rs`: the character scan inside `has_explicit_scheme`
(the loop over all characters after the first). -/
def schemeTail : Str → Bool
  | [] => false
  | c :: rest =>
    if c = ':' then true
    else if c.isAlphanum || c == '+' || c == '-' || c == '.' then schemeTail rest
    else false

/-- `commands/browser.rs`: `has_explicit_scheme`. -/
def hasExplicitScheme : Str → Bool
  | [] => false
  | c :: rest => c.isAlpha && schemeTail rest

/-- `commands/browser.rs`: `normalize_navigation_url`. -/
def normalizeNavigationUrl (raw : Str) : Except ActionbookError Str :=
  let trimmed := rustTrim raw
  if trimmed.isEmpty then
    .error (.Other "Invalid URL: empty input")
  else if ("//".toList).isPrefixOf trimmed then
    .ok ("https://".toList ++ trimmed.drop 2)
  else if containsSeq ("://".toList) trimmed then
    .ok trimmed
  else if isHostPortWithOptionalPath trimmed then
    .ok ("https://".toList ++ trimmed)
  else if hasExplicitScheme trimmed then
    .ok trimmed
  else
    .ok ("https://".toList ++ trimmed)

/-! ### `browser/camofox/types.rs` and `browser/camofox/snapshot.rs`

`AccessibilityNode` has `children: Option<Vec<AccessibilityNode>>`.  The
vector is modelled by the auxiliary mutual type `ANodeList` (isomorphic to
`List ANode`) so that all functions below are plain structural recursion. -/

mutual
inductive ANode where
  | mk (role : Str) (name : Option Str) (elementRef : Option Str)
      (children : Option ANodeList) (value : Option Str) (focusable : Option Bool)
inductive ANodeList where
  | nil
  | cons (head : ANode) (tail : ANodeList)
end

def ANode.role : ANode → Str
  | .mk r _ _ _ _ _ => r

def ANode.name : ANode → Option Str
  | .mk _ n _ _ _ _ => n

def ANode.elementRef : ANode → Option Str
  | .mk _ _ e _ _ _ => e

def ANode.children : ANode → Option ANodeList
  | .mk _ _ _ c _ _ => c

def ANode.focusable : ANode → Option Bool
  | .mk _ _ _ _ _ f => f

/-- Membership in an `ANodeList`. -/
def ANodeList.mem (x : ANode) : ANodeList → Prop
  | .nil => False
  | .cons h t => x = h ∨ ANodeList.mem x t

/-- The quote characters stripped by `matches_selector` and
`matches_attribute_selector` (`'"'` and the single quote, written
numerically to keep the character literal simple). -/
def singleQuoteChar : Char := Char.ofNat 39

/-- `snapshot.rs`: `AccessibilityNode::matches_attribute_selector`.
`selector` is the full attribute selector including the square brackets. -/
def matchesAttributeSelector (n : ANode) (selector : Str) : Bool :=
  let inner := (selector.drop 1).dropLast
  match findCharIdx '=' inner with
  | some eqPos =>
    let attr := rustTrim (inner.take eqPos)
    let value :=
      trimMatchesChar singleQuoteChar
        (trimMatchesChar '"' (rustTrim (inner.drop (eqPos + 1))))
    if attr == "aria-label".toList || attr == "name".toList then
      match n.name with
      | some nm => nm == value || containsSeq value nm
      | none => false
    else if attr == "role".toList then
      n.role == value
    else if attr == "type".toList then
      (n.role == "textbox".toList && value == "text".toList) ||
      (n.role == "button".toList && value == "submit".toList)
    else false
  | none =>
    let attr := rustTrim inner
    if attr == "focusable".toList then n.focusable.getD false else false

/-- `snapshot.rs`: `AccessibilityNode::matches_selector`.

One divergence from Rust is deliberate: in the `:contains(` arm, when the
last `)` sits before the end of the `:contains(` pattern the Rust slice
`&selector[text_start + 10..text_end]` panics, while the model yields the
empty list; no claim exercises that corner. -/
def matchesSelector (n : ANode) (selectorRaw : Str) : Bool :=
  let selector := rustTrim selectorRaw
  match selector with
  | '#' :: id =>
    (match n.name with
     | some nm => containsSeq id nm || nm == id
     | none => false)
  | '.' :: cls =>
    (match n.name with
     | some nm => containsSeq cls nm
     | none => false)
  | _ =>
    if !selector.contains '[' && !selector.contains ':' then
      eqIgnoreAsciiCase n.role selector
    else if (match selector with | '[' :: _ => true | _ => false) &&
            (match selector.getLast? with | some c => c == ']' | none => false) then
      matchesAttributeSelector n selector
    else
      match findSeqIdx (":contains(".toList) selector with
      | some textStart =>
        let rolePart := selector.take textStart
        if !rolePart.isEmpty && !eqIgnoreAsciiCase n.role rolePart then false
        else
          match rfindCharIdx ')' selector with
          | some textEnd =>
            let text := (selector.take textEnd).drop (textStart + 10)
            let text := trimMatchesChar singleQuoteChar (trimMatchesChar '"' text)
            (match n.name with
             | some nm => containsSeq text nm
             | none => false)
          | none => false
      | none => false

mutual
/-- `snapshot.rs`: `AccessibilityNode::find_matching` — depth-first walk;
a matching node returns its own `element_ref` (even when that is `None`)
without descending into its subtree. -/
def findMatching (n : ANode) (sel : Str) : Option Str :=
  match n with
  | .mk role name ref children value foc =>
    if matchesSelector (.mk role name ref children value foc) sel then ref
    else findMatchingInChildren children sel

def findMatchingInChildren (c : Option ANodeList) (sel : Str) : Option Str :=
  match c with
  | none => none
  | some cs => findMatchingInList cs sel

def findMatchingInList (l : ANodeList) (sel : Str) : Option Str :=
  match l with
  | .nil => none
  | .cons c cs =>
    match findMatching c sel with
    | some r => some r
    | none => findMatchingInList cs sel
end

mutual
/-- The first node of the depth-first (preorder) traversal that satisfies
`matches_selector` — the reference reading of "first match wins"; unlike
`find_matching` it never prunes subtrees. -/
def firstMatchNode (n : ANode) (sel : Str) : Option ANode :=
  match n with
  | .mk role name ref children value foc =>
    if matchesSelector (.mk role name ref children value foc) sel then
      some (.mk role name ref children value foc)
    else firstMatchChildren children sel

def firstMatchChildren (c : Option ANodeList) (sel : Str) : Option ANode :=
  match c with
  | none => none
  | some cs => firstMatchList cs sel

def firstMatchList (l : ANodeList) (sel : Str) : Option ANode :=
  match l with
  | .nil => none
  | .cons c cs =>
    match firstMatchNode c sel with
    | some m => some m
    | none => firstMatchList cs sel
end

/-- The example tree of §8 scenario 5 (also the tree built by the unit test
`test_find_matching_recursive`). -/
def exampleTree : ANode :=
  .mk ("document".toList) none none
    (some (.cons (.mk ("div".toList) none none none none none)
      (.cons (.mk ("section".toList) none none
        (some (.cons
          (.mk ("button".toList) (some ("login-btn".toList))
            (some ("e3".toList)) none none none) .nil))
        none none) .nil)))
    none none

/-! ### `browser/camofox/session.rs` -/

/-- Numeric value of a digit string. -/
def digitsVal (ds : Str) : Nat :=
  ds.foldl (fun a c => a * 10 + (c.toNat - ('0').toNat)) 0

/-- Rust `str::parse::<u32>()`: an optional leading `+`, then one or more
ASCII digits, with the value below `2^32` (overflow is an error). -/
def parseU32 (s : Str) : Option Nat :=
  let digits := if s.head? == some '+' then s.tail else s
  if !digits.isEmpty && digits.all Char.isDigit && digitsVal digits < 2 ^ 32 then
    some (digitsVal digits)
  else none

/-- `session.rs` `resolve_selector` phase 1 condition:
`selector.starts_with('e') && selector[1..].parse::<u32>().is_ok()`. -/
def isElementRefSelector (sel : Str) : Bool :=
  match sel with
  | c :: rest => c == 'e' && (parseU32 rest).isSome
  | [] => false

/-- `session.rs` `SnapshotCache`; the clock comparison
`timestamp.elapsed() < ttl` of `is_fresh` is abstracted into the
boolean field `fresh`. -/
structure SnapshotCacheM where
  tree : ANode
  fresh : Bool

/-- `session.rs` `CamofoxSession` (the HTTP client, `user_id` and
`session_key` play no role in the claims and are omitted from the state;
network calls appear as oracle arguments). -/
structure CamofoxSessionM where
  activeTabId : Option Str
  snapshotCache : Option SnapshotCacheM

/-- `session.rs`: `CamofoxSession::active_tab`. -/
def activeTab (s : CamofoxSessionM) : Except ActionbookError Str :=
  match s.activeTabId with
  | some t => .ok t
  | none => .error (.BrowserOperation "No active tab")

/-- `session.rs`: `CamofoxSession::refresh_snapshot`.  `fetched` is the
oracle for `client.get_snapshot`; the returned `Nat` counts snapshot
GET requests issued. -/
def refreshSnapshot (s : CamofoxSessionM) (fetched : Except ActionbookError ANode) :
    Except ActionbookError Unit × CamofoxSessionM × Nat :=
  match activeTab s with
  | .error e => (.error e, s, 0)
  | .ok _ =>
    match fetched with
    | .error e => (.error e, s, 1)
    | .ok tree => (.ok (), { s with snapshotCache := some ⟨tree, true⟩ }, 1)

/-- `session.rs` `resolve_selector` phase 2: the fresh-cache lookup. -/
def cacheLookup (s : CamofoxSessionM) (sel : Str) : Option Str :=
  match s.snapshotCache with
  | some cache => if cache.fresh then findMatching cache.tree sel else none
  | none => none

/-- `session.rs`: `CamofoxSession::resolve_selector`.  Returns the result,
the state after the call, and the number of snapshot fetches performed. -/
def resolveSelector (s : CamofoxSessionM) (fetched : Except ActionbookError ANode)
    (sel : Str) : Except ActionbookError Str × CamofoxSessionM × Nat :=
  if isElementRefSelector sel then (.ok sel, s, 0)
  else
    match cacheLookup s sel with
    | some r => (.ok r, s, 0)
    | none =>
      match refreshSnapshot s fetched with
      | (.error e, s1, n) => (.error e, s1, n)
      | (.ok _, s1, n) =>
        match s1.snapshotCache.bind (fun c => findMatching c.tree sel) with
        | some r => (.ok r, s1, n)
        | none =>
          (.error (.ElementRefResolution sel "Element not found in accessibility tree"),
           s1, n)

/-- `session.rs`: `CamofoxSession::click`.  `clicked` is the oracle for
`client.click`. -/
def sessionClick (s : CamofoxSessionM) (fetched : Except ActionbookError ANode)
    (clicked : Except ActionbookError Unit) (sel : Str) :
    Except ActionbookError Unit × CamofoxSessionM :=
  match resolveSelector s fetched sel with
  | (.error e, s1, _) => (.error e, s1)
  | (.ok _, s1, _) =>
    match activeTab s1 with
    | .error e => (.error e, s1)
    | .ok _ =>
      match clicked with
      | .error e => (.error e, s1)
      | .ok _ => (.ok (), { s1 with snapshotCache := none })

/-- `session.rs`: `CamofoxSession::type_text`.  `typed` is the oracle for
`client.type_text`. -/
def sessionTypeText (s : CamofoxSessionM) (fetched : Except ActionbookError ANode)
    (typed : Except ActionbookError Unit) (sel _text : Str) :
    Except ActionbookError Unit × CamofoxSessionM :=
  match resolveSelector s fetched sel with
  | (.error e, s1, _) => (.error e, s1)
  | (.ok _, s1, _) =>
    match activeTab s1 with
    | .error e => (.error e, s1)
    | .ok _ =>
      match typed with
      | .error e => (.error e, s1)
      | .ok _ => (.ok (), { s1 with snapshotCache := none })

/-- `session.rs`: `CamofoxSession::navigate`.  `navigated` is the oracle for
`client.navigate`. -/
def sessionNavigate (s : CamofoxSessionM) (navigated : Except ActionbookError Unit)
    (_url : Str) : Except ActionbookError Unit × CamofoxSessionM :=
  match activeTab s with
  | .error e => (.error e, s)
  | .ok _ =>
    match navigated with
    | .error e => (.error e, s)
    | .ok _ => (.ok (), { s with snapshotCache := none })

/-- `session.rs`: `CamofoxSession::create_tab`.  `created` is the oracle for
`client.create_tab`, yielding the new tab id. -/
def sessionCreateTab (s : CamofoxSessionM) (created : Except ActionbookError Str)
    (_url : Str) : Except ActionbookError Str × CamofoxSessionM :=
  match created with
  | .error e => (.error e, s)
  | .ok id =>
    (.ok id, { s with activeTabId := some id, snapshotCache := none })

/-! ### `browser/router.rs` -/

/-- `router.rs` `BrowserDriver` variants (the payloads are irrelevant to the
claims). -/
inductive BrowserDriverM where
  | cdp
  | camofox
  deriving DecidableEq

/-- `router.rs`: `BrowserDriver::execute_js`.  For the CDP arm the call
`mgr.eval_on_page` plus JSON serialization is abstracted into the oracle
`cdpEval`; the Camoufox arm is verbatim from the source. -/
def executeJs (d : BrowserDriverM) (cdpEval : Except ActionbookError Str)
    (_script : Str) : Except ActionbookError Str :=
  match d with
  | .cdp => cdpEval
  | .camofox =>
    .error (.BrowserOperation "JavaScript execution not supported in Camoufox backend")

/-! ### `commands/browser.rs`: the `run` dispatcher, `close` and
`close_extension`

External calls are recorded in an effect list; their outcomes come from a
`World` of oracles.  `bridge_lifecycle` is not among the sources in scope, so
`ensure_bridge_running`/`stop_bridge` are modelled from the spec (§4.5). -/

/-- `cli.rs` `BrowserMode` (the two values `resolve_mode` can produce). -/
inductive BrowserModeM where
  | isolated
  | extension
  deriving DecidableEq

/-- The `BrowserCommands` shapes that matter to the dispatcher: `Close`,
the backend-free commands `Status` and `Connect`, and every other
(backend-using) action. -/
inductive BrowserCmd where
  | close
  | statusCmd
  | connectCmd
  | otherAction
  deriving DecidableEq

/-- Externally visible calls made while a `browser` command runs. -/
inductive Eff where
  /-- `extension_bridge::is_bridge_running` (read-only probe). -/
  | probeBridge
  /-- the bridge daemon being spawned (this is the only step that creates
  the `bridge.port`/`bridge.token` state files). -/
  | spawnBridgeDaemon
  /-- `extension_bridge::send_command(port, method, …)`. -/
  | sendBridgeCommand (method : String)
  /-- `ensure_cdp_override` resolving and persisting a `--cdp` endpoint. -/
  | applyCdpOverride
  /-- `backend.close()`. -/
  | backendClose
  /-- `bridge_lifecycle::stop_bridge`. -/
  | stopBridge
  /-- any non-`close` uniform action executed on the backend. -/
  | backendAction
  deriving DecidableEq

/-- Oracle outcomes for the external calls. -/
structure World where
  /-- result of the `is_bridge_running` probe. -/
  bridgeRunning : Bool
  /-- whether a spawned daemon comes up within the wait window. -/
  spawnOk : Bool
  /-- result of the routed `Extension.detachTab` call. -/
  detachResult : Except ActionbookError Unit
  /-- result of `backend.close()`. -/
  backendCloseResult : Except ActionbookError Unit
  /-- result of `ensure_cdp_override` when it applies. -/
  cdpOverrideResult : Except ActionbookError Unit
  /-- result of `bridge_lifecycle::stop_bridge`. -/
  stopResult : Except ActionbookError Unit
  /-- result of the dispatched non-`close` action. -/
  actionResult : Except ActionbookError Unit

/-- `commands/browser.rs`: `close_extension` — probe the bridge; when it is
running send a single `Extension.detachTab` whose outcome is ignored;
report success either way. -/
def closeExtension (w : World) : List Eff × Except ActionbookError Unit :=
  if w.bridgeRunning then
    ([.probeBridge, .sendBridgeCommand "Extension.detachTab"], .ok ())
  else
    ([.probeBridge], .ok ())

/-- Modelled from the spec: `bridge_lifecycle::ensure_bridge_running`
(§4.5 `ensure_running`) — its module is not among the sources in scope.
If the daemon is already running return `auto_started = false`; otherwise
spawn it, wait for it to come up, and return `auto_started = true`. -/
def ensureBridgeRunning (w : World) : List Eff × Except ActionbookError Bool :=
  if w.bridgeRunning then ([.probeBridge], .ok false)
  else if w.spawnOk then ([.probeBridge, .spawnBridgeDaemon], .ok true)
  else ([.probeBridge, .spawnBridgeDaemon],
        .error (.Other "bridge daemon did not start"))

/-- `commands/browser.rs`: `create_backend` — isolated backends never
auto-start the bridge; extension backends call `ensure_bridge_running`
and pass its `auto_started` bit along. -/
def createBackend (mode : BrowserModeM) (w : World) :
    List Eff × Except ActionbookError Bool :=
  match mode with
  | .isolated => ([], .ok false)
  | .extension => ensureBridgeRunning w

/-- `commands/browser.rs`: `close` — close the backend, then stop the bridge
daemon only when this invocation auto-started it and the mode is
Extension. -/
def closeCommand (mode : BrowserModeM) (autoStarted : Bool) (w : World) :
    List Eff × Except ActionbookError Unit :=
  match w.backendCloseResult with
  | .error e => ([.backendClose], .error e)
  | .ok _ =>
    if autoStarted && mode == .extension then
      match w.stopResult with
      | .error e => ([.backendClose, .stopBridge], .error e)
      | .ok _ => ([.backendClose, .stopBridge], .ok ())
    else ([.backendClose], .ok ())

/-- Result of one `browser` command dispatch: the effect trace, the
command's result, and the `auto_started` bit returned by `create_backend`
(`none` when no backend was created). -/
structure RunOut where
  effs : List Eff
  res : Except ActionbookError Unit
  autoStarted : Option Bool
  deriving DecidableEq

/-- `commands/browser.rs`: `run` — the dispatcher: reject `--profile` in
extension mode; apply a `--cdp` override for isolated non-`Connect`
commands; handle `Status`/`Connect` without a backend; short-circuit
`Close` in extension mode to `close_extension`; otherwise create the
backend and dispatch.  `cdpFlagGiven` is `cli.cdp.is_some()` (when false,
`ensure_cdp_override` returns at once without effects). -/
def runBrowserCommand (mode : BrowserModeM) (profileGiven cdpFlagGiven : Bool)
    (cmd : BrowserCmd) (w : World) : RunOut :=
  if mode == .extension && profileGiven then
    ⟨[], .error (.Other "--profile is not supported in extension mode"), none⟩
  else
    let cdpStep : List Eff × Except ActionbookError Unit :=
      if mode == .isolated && cmd != .connectCmd && cdpFlagGiven then
        match w.cdpOverrideResult with
        | .error e => ([.applyCdpOverride], .error e)
        | .ok _ => ([.applyCdpOverride], .ok ())
      else ([], .ok ())
    match cdpStep with
    | (effs0, .error e) => ⟨effs0, .error e, none⟩
    | (effs0, .ok _) =>
      if cmd == .statusCmd || cmd == .connectCmd then
        ⟨effs0, .ok (), none⟩
      else if cmd == .close && mode == .extension then
        let (effs1, r) := closeExtension w
        ⟨effs0 ++ effs1, r, none⟩
      else
        match createBackend mode w with
        | (effs1, .error e) => ⟨effs0 ++ effs1, .error e, none⟩
        | (effs1, .ok autoStarted) =>
          match cmd with
          | .close =>
            let (effs2, r) := closeCommand mode autoStarted w
            ⟨effs0 ++ effs1 ++ effs2, r, some autoStarted⟩
          | _ =>
            ⟨effs0 ++ effs1 ++ [.backendAction], w.actionResult, some autoStarted⟩

/-! ### Extension bridge router

Modelled from the spec: `browser/extension_bridge.rs` is not among the
sources in scope (only its integration tests and callers are), so the
CLI↔extension routing of §4.5 is embedded from the spec's words: a fresh
monotonic `bridge_id` per CLI request, a `pending` map
`bridge_id → (origin client, origin cli id)`, id rewriting on the way back,
erasure after forwarding, and unknown-id responses dropped.  `P` is the type
of `params` objects and `R` the type of `result`/`error` payloads; the router
treats both as opaque. -/

/-- Frame forwarded to the extension: `{id: bridge_id, method, params}`. -/
structure ExtFrame (P : Type) where
  id : Nat
  method : Str
  params : P
  deriving DecidableEq

/-- Frame delivered to a CLI: `{id: cli_id, result|error}` with the payload
taken verbatim from the extension's response frame. -/
structure CliRespFrame (R : Type) where
  id : Nat
  payload : R
  deriving DecidableEq

/-- Messages the router emits. -/
inductive BridgeOut (P R : Type) where
  | toExtension (f : ExtFrame P)
  | toCli (client : Nat) (f : CliRespFrame R)
  /-- daemon-synthesised `{id: cli_id, error:{message:"extension not
  connected"}}`. -/
  | notConnectedError (client : Nat) (cliId : Nat)
  deriving DecidableEq

/-- Router state: the monotonically increasing `bridge_id` counter, the
`pending` map (as an association list, most recent first) and whether an
extension client is registered. -/
structure BridgeState where
  nextBridgeId : Nat
  pending : List (Nat × Nat × Nat)
  extensionConnected : Bool
  deriving DecidableEq

def lookupPending (l : List (Nat × Nat × Nat)) (b : Nat) : Option (Nat × Nat) :=
  match l with
  | [] => none
  | (k, c, n) :: rest => if k == b then some (c, n) else lookupPending rest b

def erasePending (l : List (Nat × Nat × Nat)) (b : Nat) : List (Nat × Nat × Nat) :=
  match l with
  | [] => []
  | (k, c, n) :: rest =>
    if k == b then rest else (k, c, n) :: erasePending rest b

/-- CLI → extension: allocate a fresh `bridge_id`, record the origin, and
forward; without an extension, synthesise the error reply at once. -/
def handleCliRequest {P R : Type} (st : BridgeState) (client cliId : Nat)
    (method : Str) (params : P) : BridgeState × List (BridgeOut P R) :=
  if st.extensionConnected then
    ({ st with
        nextBridgeId := st.nextBridgeId + 1,
        pending := (st.nextBridgeId, client, cliId) :: st.pending },
     [.toExtension ⟨st.nextBridgeId, method, params⟩])
  else
    (st, [.notConnectedError client cliId])

/-- Extension → CLI: rewrite the bridge id back to the originating CLI id,
deliver to that CLI, and erase the pending entry; unknown ids are dropped. -/
def handleExtensionResponse {P R : Type} (st : BridgeState) (bridgeId : Nat)
    (payload : R) : BridgeState × List (BridgeOut P R) :=
  match lookupPending st.pending bridgeId with
  | some (client, cliId) =>
    ({ st with pending := erasePending st.pending bridgeId },
     [.toCli client ⟨cliId, payload⟩])
  | none => (st, [])

inductive BridgeEvent (P R : Type) where
  | cliRequest (client cliId : Nat) (method : Str) (params : P)
  | extensionResponse (bridgeId : Nat) (payload : R)

/-- Run the router over a sequence of events, accumulating its output. -/
def processBridgeEvents {P R : Type} (st : BridgeState) :
    List (BridgeEvent P R) → BridgeState × List (BridgeOut P R)
  | [] => (st, [])
  | e :: rest =>
    let (st1, outs1) :=
      match e with
      | .cliRequest client cliId method params =>
        handleCliRequest st client cliId method params
      | .extensionResponse bridgeId payload =>
        handleExtensionResponse st bridgeId payload
    let (st2, outs2) := processBridgeEvents st1 rest
    (st2, outs1 ++ outs2)

/-- The response frames a given CLI client receives. -/
def outputsToCli {P R : Type} (client : Nat) :
    List (BridgeOut P R) → List (CliRespFrame R)
  | [] => []
  | .toCli c f :: rest =>
    if c == client then f :: outputsToCli client rest else outputsToCli client rest
  | _ :: rest => outputsToCli client rest

/-- The frames forwarded to the extension. -/
def outputsToExtension {P R : Type} :
    List (BridgeOut P R) → List (ExtFrame P)
  | [] => []
  | .toExtension f :: rest => f :: outputsToExtension rest
  | _ :: rest => outputsToExtension rest

/-! ### `commands/browser.rs`: the `inspect` command -/

/-- The JSON values appearing in `inspect`'s output object.  `passthrough`
stands for a JSON value forwarded verbatim (the backend's inspection
object, coordinates, viewport); its content does not matter to the claims,
so it is indexed by an opaque tag. -/
inductive JVal where
  | bool (b : Bool)
  | str (s : String)
  | passthrough (tag : Nat)
  deriving DecidableEq

/-- Lookup of a key in a printed JSON object. -/
def jsonLookup (key : String) : List (String × JVal) → Option JVal
  | [] => none
  | (k, v) :: rest => if k == key then some v else jsonLookup key rest

/-- The out-of-bounds message text (numeric formatting of the Rust
`format!` is abstracted by `toString`). -/
def outOfBoundsMsg (x y : ℚ) (vw vh : Nat) : String :=
  "Coordinates (" ++ toString x ++ ", " ++ toString y ++
    ") are outside viewport bounds (" ++ toString vw ++ "x" ++ toString vh ++ ")"

/-- `commands/browser.rs`: the `inspect` command handler (JSON output mode).
The `f64` coordinates are modelled as rationals (only order comparisons are
performed on them).  Returns the printed JSON object and whether
`backend.inspect` was invoked.  `viewportResult` is the oracle for
`backend.viewport()`, `inspectResult` the oracle for `backend.inspect(x,y)`. -/
def inspectCommand (viewportResult : Except ActionbookError (Nat × Nat))
    (inspectResult : Except ActionbookError JVal) (x y : ℚ) :
    Except ActionbookError (List (String × JVal)) × Bool :=
  match viewportResult with
  | .error e => (.error e, false)
  | .ok (vw, vh) =>
    if x < 0 || x > (vw : ℚ) || y < 0 || y > (vh : ℚ) then
      (.ok [("success", .bool false),
            ("message", .str (outOfBoundsMsg x y vw vh))], false)
    else
      match inspectResult with
      | .error e => (.error e, true)
      | .ok r =>
        (.ok [("success", .bool true),
              ("coordinates", .passthrough 0),
              ("viewport", .passthrough 1),
              ("inspection", r)], true)

/-! ### Spec-side predicates

Independent formulations of the conditions named by the specification,
used on the hypothesis side of the claim theorems and related to the
embedded code by the equivalence lemmas below. -/

/-- Spec side: "`s` is `host[:port][suffix]` with a non-empty host free of
`/`, `?`, `#`, a non-empty all-digit port, and a suffix that is empty or
begins with `/`, `?` or `#`". -/
def HostPortShape (s : Str) : Prop :=
  ∃ host port rest,
    s = host ++ ':' :: (port ++ rest) ∧
    host ≠ [] ∧ port ≠ [] ∧
    (∀ c ∈ port, c.isDigit = true) ∧
    (∀ c ∈ host, isBoundaryChar c = false) ∧
    (rest = [] ∨ ∃ c t, rest = c :: t ∧ isBoundaryChar c = true)

/-- Spec side: "`s` matches the scheme pattern
`[A-Za-z][A-Za-z0-9+-.]*:`" — an ASCII letter, then
letters/digits/`+`/`-`/`.` up to a colon. -/
def SchemeShape (s : Str) : Prop :=
  ∃ c0 mid rest,
    s = c0 :: (mid ++ ':' :: rest) ∧ c0.isAlpha = true ∧
    ∀ x ∈ mid, (x.isAlphanum = true ∨ x = '+' ∨ x = '-' ∨ x = '.')

/-- Spec side: the strings accepted by Rust `u32::from_str` — an optional
leading `+`, one or more digits, value below `2^32`. -/
def U32Shape (s : Str) : Prop :=
  ∃ ds, (s = ds ∨ s = '+' :: ds) ∧ ds ≠ [] ∧
    (∀ c ∈ ds, c.isDigit = true) ∧ digitsVal ds < 2 ^ 32

/-- Spec side: the selectors taken by `resolve_selector`'s element-ref fast
path — `e` followed by a string `u32::from_str` accepts. -/
def FastRefShape (sel : Str) : Prop :=
  ∃ rest, sel = 'e' :: rest ∧ U32Shape rest

/-- The claim's regular expression for the fast path. -/
def matchesERegex (sel : Str) : Bool :=
  match sel with
  | 'e' :: rest => !rest.isEmpty && rest.all Char.isDigit
  | _ => false

/-- A one-node tree used for concrete session runs: a button named `btn`
with element ref `e1`. -/
def btnNode : ANode :=
  .mk ("button".toList) (some ("btn".toList)) (some ("e1".toList)) none none none

/-- A matching root with no `element_ref` whose subtree contains a matching
button with ref `e5`: `find_matching` prunes the whole subtree. -/
def prunedTree : ANode :=
  .mk ("button".toList) none none
    (some (.cons
      (.mk ("button".toList) (some ("inner".toList)) (some ("e5".toList))
        none none none) .nil))
    none none

/-! ### Smoke checks: concrete evaluations of the embedded code -/

example : normalizeNavigationUrl ("google.com/search?q=a".toList) =
    .ok ("https://google.com/search?q=a".toList) := by decide

example : normalizeNavigationUrl ("//example.com/x".toList) =
    .ok ("https://example.com/x".toList) := by decide

example : normalizeNavigationUrl ("about:blank".toList) =
    .ok ("about:blank".toList) := by decide

example : normalizeNavigationUrl ("".toList) =
    .error (.Other "Invalid URL: empty input") := by decide

example : normalizeNavigationUrl ("//a://b".toList) =
    .ok ("https://a://b".toList) := by decide

example : normalizeNavigationUrl ("example.com:8080?x".toList) =
    .ok ("https://example.com:8080?x".toList) := by decide

example : findMatching exampleTree ("#login-btn".toList) = some ("e3".toList) := by decide
example : findMatching exampleTree ("button".toList) = some ("e3".toList) := by decide

example : isElementRefSelector ("e1".toList) = true := by decide
example : isElementRefSelector ("e42".toList) = true := by decide
example : isElementRefSelector ("#login".toList) = false := by decide
example : isElementRefSelector ("e+0".toList) = true := by decide
example : isElementRefSelector ("e4294967296".toList) = false := by decide

/-! ### Helper lemmas -/

theorem dropWhile_eq_self_of_all {p : Char → Bool} :
    ∀ l : Str, (∀ c ∈ l, p c = false) → l.dropWhile p = l := by
  intro l h
  cases l with
  | nil => rfl
  | cons c rest =>
    simp [List.dropWhile_cons, h c (by simp)]

theorem rustTrim_eq_self {s : Str} (h : ∀ c ∈ s, c.isWhitespace = false) :
    rustTrim s = s := by
  unfold rustTrim
  rw [dropWhile_eq_self_of_all s h,
      dropWhile_eq_self_of_all s.reverse (fun c hc => h c (List.mem_reverse.mp hc)),
      List.reverse_reverse]

theorem rustTrim_eq_nil {s : Str} (h : ∀ c ∈ s, c.isWhitespace = true) :
    rustTrim s = [] := by
  unfold rustTrim
  rw [List.dropWhile_eq_nil_iff.mpr h]
  simp

theorem containsSeq_iff_substring (pat : Str) :
    ∀ s : Str, containsSeq pat s = true ↔ pat <:+: s := by
  intro s
  induction s with
  | nil => simp [containsSeq, List.infix_nil, List.isEmpty_iff]
  | cons c rest ih =>
    simp only [containsSeq, Bool.or_eq_true, List.infix_cons_iff,
      List.isPrefixOf_iff_prefix, ih]

theorem isPrefixOf_slashes_iff (s : Str) :
    ("//".toList).isPrefixOf s = true ↔ ∃ rest, s = '/' :: '/' :: rest := by
  rw [List.isPrefixOf_iff_prefix]
  constructor
  · rintro ⟨t, ht⟩
    exact ⟨t, ht.symm⟩
  · rintro ⟨rest, hr⟩
    exact ⟨rest, hr.symm⟩

theorem rsplitOnce_eq_none_iff (ch : Char) :
    ∀ l : Str, rsplitOnce ch l = none ↔ ch ∉ l := by
  intro l
  induction l with
  | nil => simp [rsplitOnce]
  | cons c rest ih =>
    simp only [rsplitOnce]
    cases hrec : rsplitOnce ch rest with
    | some p =>
      have hin : ch ∈ rest := by
        by_contra hno
        rw [← ih] at hno
        rw [hrec] at hno
        exact Option.noConfusion hno
      simp [List.mem_cons, hin]
    | none =>
      have hnotin : ch ∉ rest := ih.mp hrec
      by_cases hc : c = ch
      · simp [hc, List.mem_cons]
      · simp only [if_neg hc]
        constructor
        · intro _ hmem
          rcases List.mem_cons.mp hmem with h1 | h2
          · exact hc h1.symm
          · exact hnotin h2
        · intro _; trivial

theorem rsplitOnce_eq_some_iff (ch : Char) :
    ∀ l a b : Str, rsplitOnce ch l = some (a, b) ↔ (l = a ++ ch :: b ∧ ch ∉ b) := by
  intro l
  induction l with
  | nil =>
    intro a b
    simp only [rsplitOnce]
    constructor
    · intro h; exact Option.noConfusion h
    · rintro ⟨hl, -⟩
      exact absurd hl.symm (List.append_ne_nil_of_right_ne_nil a (by simp))
  | cons c rest ih =>
    intro a b
    simp only [rsplitOnce]
    cases hrec : rsplitOnce ch rest with
    | some p =>
      obtain ⟨a1, b1⟩ := p
      obtain ⟨hsplit, hnot⟩ := (ih a1 b1).mp hrec
      constructor
      · intro h
        simp only [Option.some.injEq, Prod.mk.injEq] at h
        obtain ⟨ha, hb⟩ := h
        subst ha; subst hb
        simp [hsplit, hnot]
      · rintro ⟨hl, hb⟩
        cases a with
        | nil =>
          simp only [List.nil_append] at hl
          obtain ⟨hc, hrest⟩ := List.cons.inj hl
          exfalso
          apply hb
          rw [← hrest, hsplit]
          simp
        | cons a0 a2 =>
          simp only [List.cons_append] at hl
          obtain ⟨hc, hrest⟩ := List.cons.inj hl
          have heq : rsplitOnce ch rest = some (a2, b) := (ih a2 b).mpr ⟨hrest, hb⟩
          rw [hrec] at heq
          simp only [Option.some.injEq, Prod.mk.injEq] at heq
          obtain ⟨h1, h2⟩ := heq
          subst hc; subst h1; subst h2
          rfl
    | none =>
      have hnotin : ch ∉ rest := (rsplitOnce_eq_none_iff ch rest).mp hrec
      by_cases hc : c = ch
      · simp only [if_pos hc]
        constructor
        · intro h
          simp only [Option.some.injEq, Prod.mk.injEq] at h
          rcases h with ⟨rfl, rfl⟩
          simp [hc, hnotin]
        · rintro ⟨hl, hb⟩
          cases a with
          | nil =>
            simp only [List.nil_append] at hl
            obtain ⟨-, hrest⟩ := List.cons.inj hl
            rw [hrest]
          | cons a0 a2 =>
            simp only [List.cons_append] at hl
            obtain ⟨hc0, hrest⟩ := List.cons.inj hl
            exfalso
            exact hnotin (by rw [hrest]; simp)
      · simp only [if_neg hc]
        constructor
        · intro h; exact Option.noConfusion h
        · rintro ⟨hl, hb⟩
          cases a with
          | nil =>
            simp only [List.nil_append] at hl
            exact absurd (List.cons.inj hl).1 hc
          | cons a0 a2 =>
            simp only [List.cons_append] at hl
            exfalso
            exact hnotin (by rw [(List.cons.inj hl).2]; simp)

theorem takeWhile_append_of_all {p : Char → Bool} :
    ∀ (h t : Str), (∀ c ∈ h, p c = true) → (h ++ t).takeWhile p = h ++ t.takeWhile p := by
  intro h
  induction h with
  | nil => intro t _; rfl
  | cons c rest ih =>
    intro t hall
    simp only [List.cons_append, List.takeWhile_cons, hall c (by simp)]
    rw [ih t (fun x hx => hall x (by simp [hx]))]
    simp

theorem takeWhile_eq_self_of_all {p : Char → Bool} :
    ∀ l : Str, (∀ c ∈ l, p c = true) → l.takeWhile p = l := by
  intro l hall
  have := takeWhile_append_of_all (p := p) l [] hall
  simpa using this

theorem dropWhile_head_false {p : Char → Bool} :
    ∀ (l : Str) (c : Char) (t : Str), l.dropWhile p = c :: t → p c = false := by
  intro l
  induction l with
  | nil => intro c t h; exact absurd h (by simp)
  | cons x rest ih =>
    intro c t h
    by_cases hx : p x
    · rw [List.dropWhile_cons, if_pos hx] at h
      exact ih c t h
    · rw [List.dropWhile_cons, if_neg hx] at h
      obtain ⟨h1, -⟩ := List.cons.inj h
      rw [← h1]
      exact Bool.eq_false_iff.mpr hx

theorem isDigit_not_boundary {c : Char} (h : c.isDigit = true) :
    isBoundaryChar c = false := by
  by_contra hb
  have hb2 : isBoundaryChar c = true := Bool.not_eq_false _ |>.mp hb
  simp only [isBoundaryChar, Bool.or_eq_true, beq_iff_eq] at hb2
  rcases hb2 with (rfl | rfl) | rfl <;> exact absurd h (by decide)

theorem isDigit_ne_colon {c : Char} (h : c.isDigit = true) : c ≠ ':' := by
  intro hc
  subst hc
  exact absurd h (by decide)

/-- `is_host_port_with_optional_path` accepts exactly the spec-side
host-port shapes. -/
theorem isHostPort_iff_shape (s : Str) :
    isHostPortWithOptionalPath s = true ↔ HostPortShape s := by
  constructor
  · intro h
    unfold isHostPortWithOptionalPath at h
    by_cases hemp : (s.takeWhile (fun c => !isBoundaryChar c)).isEmpty
    · rw [if_pos hemp] at h
      exact absurd h (by simp)
    · rw [if_neg hemp] at h
      cases hsplit : rsplitOnce ':' (s.takeWhile (fun c => !isBoundaryChar c)) with
      | none => rw [hsplit] at h; exact absurd h (by simp)
      | some hp =>
        obtain ⟨host, port⟩ := hp
        rw [hsplit] at h
        simp only [Bool.and_eq_true, Bool.not_eq_true'] at h
        obtain ⟨⟨hhost, hport⟩, hdigits⟩ := h
        obtain ⟨hAeq, -⟩ :=
          (rsplitOnce_eq_some_iff ':' _ host port).mp hsplit
        refine ⟨host, port, s.dropWhile (fun c => !isBoundaryChar c), ?_, ?_, ?_, ?_, ?_, ?_⟩
        · conv_lhs => rw [← List.takeWhile_append_dropWhile (fun c => !isBoundaryChar c) s]
          rw [hAeq]
          simp
        · intro hn; rw [hn] at hhost; exact absurd hhost (by simp)
        · intro hn; rw [hn] at hport; exact absurd hport (by simp)
        · exact fun c hc => List.all_eq_true.mp hdigits c hc
        · intro c hc
          have hmem : c ∈ s.takeWhile (fun c => !isBoundaryChar c) := by
            rw [hAeq]; exact List.mem_append_left _ hc
          have := List.mem_takeWhile_imp hmem
          simpa using this
        · cases hrest : s.dropWhile (fun c => !isBoundaryChar c) with
          | nil => left; rfl
          | cons c t =>
            right
            refine ⟨c, t, rfl, ?_⟩
            have := dropWhile_head_false (p := fun c => !isBoundaryChar c) s c t hrest
            simpa using this
  · rintro ⟨host, port, rest, hs, hhost, hport, hdigits, hbound, hrest⟩
    have hAll : ∀ c ∈ host ++ ':' :: port, (!isBoundaryChar c) = true := by
      intro c hc
      rcases List.mem_append.mp hc with hin | hin
      · simp [hbound c hin]
      · rcases List.mem_cons.mp hin with rfl | hin2
        · decide
        · simp [isDigit_not_boundary (hdigits c hin2)]
    have hAeq : s.takeWhile (fun c => !isBoundaryChar c) = host ++ ':' :: port := by
      rw [hs]
      have hassoc : host ++ ':' :: (port ++ rest) = (host ++ ':' :: port) ++ rest := by
        simp
      rw [hassoc, takeWhile_append_of_all _ _ hAll]
      rcases hrest with rfl | ⟨c, t, rfl, hb⟩
      · simp
      · simp [List.takeWhile_cons, hb]
    unfold isHostPortWithOptionalPath
    rw [hAeq, if_neg (by simp [List.isEmpty_iff]),
        (rsplitOnce_eq_some_iff ':' _ host port).mpr
          ⟨rfl, fun hin => isDigit_ne_colon (hdigits ':' hin) rfl⟩]
    simp only [Bool.and_eq_true, Bool.not_eq_true']
    refine ⟨⟨?_, ?_⟩, List.all_eq_true.mpr hdigits⟩
    · cases host with
      | nil => exact absurd rfl hhost
      | cons _ _ => rfl
    · cases port with
      | nil => exact absurd rfl hport
      | cons _ _ => rfl

/-- The scan `schemeTail` succeeds exactly on "allowed characters up to a
colon". -/
theorem schemeTail_iff : ∀ t : Str, schemeTail t = true ↔
    ∃ mid rest, t = mid ++ ':' :: rest ∧
      ∀ x ∈ mid, (x.isAlphanum = true ∨ x = '+' ∨ x = '-' ∨ x = '.') := by
  intro t
  induction t with
  | nil =>
    simp only [schemeTail]
    constructor
    · intro h; exact Bool.noConfusion h
    · rintro ⟨mid, rest, heq, -⟩
      exact absurd heq.symm (List.append_ne_nil_of_right_ne_nil mid (by simp))
  | cons c r ih =>
    by_cases hc : c = ':'
    · subst hc
      rw [show schemeTail (':' :: r) = true from by simp [schemeTail]]
      simp only [true_iff]
      exact ⟨[], r, by simp, by simp⟩
    · by_cases ha : (c.isAlphanum || c == '+' || c == '-' || c == '.') = true
      · have hstep : schemeTail (c :: r) = schemeTail r := by
          simp only [schemeTail, if_neg hc, if_pos ha]
        rw [hstep, ih]
        constructor
        · rintro ⟨mid, rest, rfl, hall⟩
          refine ⟨c :: mid, rest, by simp, ?_⟩
          intro x hx
          rcases List.mem_cons.mp hx with rfl | hx2
          · simpa [Bool.or_eq_true, beq_iff_eq, or_assoc] using ha
          · exact hall x hx2
        · rintro ⟨mid, rest, heq, hall⟩
          cases mid with
          | nil =>
            simp only [List.nil_append] at heq
            exact absurd (List.cons.inj heq).1 hc
          | cons m0 ms =>
            simp only [List.cons_append] at heq
            obtain ⟨-, hrest⟩ := List.cons.inj heq
            exact ⟨ms, rest, hrest, fun x hx => hall x (by simp [hx])⟩
      · have hstep : schemeTail (c :: r) = false := by
          simp only [schemeTail, if_neg hc, if_neg ha]
        rw [hstep]
        constructor
        · intro h; exact Bool.noConfusion h
        · rintro ⟨mid, rest, heq, hall⟩
          cases mid with
          | nil =>
            simp only [List.nil_append] at heq
            exact absurd (List.cons.inj heq).1 hc
          | cons m0 ms =>
            simp only [List.cons_append] at heq
            obtain ⟨hm, -⟩ := List.cons.inj heq
            subst hm
            have := hall c (by simp)
            exact absurd (by simpa [Bool.or_eq_true, beq_iff_eq, or_assoc] using this) ha

/-- `has_explicit_scheme` accepts exactly the spec-side scheme shapes. -/
theorem hasExplicitScheme_iff_shape (s : Str) :
    hasExplicitScheme s = true ↔ SchemeShape s := by
  cases s with
  | nil =>
    simp only [hasExplicitScheme]
    constructor
    · intro h; exact Bool.noConfusion h
    · rintro ⟨c0, mid, rest, heq, -, -⟩
      exact List.noConfusion heq
  | cons c r =>
    simp only [hasExplicitScheme, Bool.and_eq_true, schemeTail_iff]
    constructor
    · rintro ⟨halpha, mid, rest, rfl, hall⟩
      exact ⟨c, mid, rest, rfl, halpha, hall⟩
    · rintro ⟨c0, mid, rest, heq, halpha, hall⟩
      obtain ⟨rfl, hrest⟩ := List.cons.inj heq
      exact ⟨halpha, mid, rest, hrest, hall⟩

theorem isDigit_ne_plus {c : Char} (h : c.isDigit = true) : c ≠ '+' := by
  intro hc; subst hc; exact absurd h (by decide)

/-- The digit-string handling common to both branches of `parseU32`. -/
theorem parseU32_digits_cond (d : Str) :
    ((if !d.isEmpty && d.all Char.isDigit && digitsVal d < 2 ^ 32 then
        some (digitsVal d)
      else none : Option Nat)).isSome = true ↔
      (d ≠ [] ∧ (∀ c ∈ d, c.isDigit = true) ∧ digitsVal d < 2 ^ 32) := by
  by_cases hcond : (!d.isEmpty && d.all Char.isDigit && decide (digitsVal d < 2 ^ 32)) = true
  · rw [if_pos hcond]
    simp only [Option.isSome_some, true_iff]
    simp only [Bool.and_eq_true, Bool.not_eq_true', decide_eq_true_eq] at hcond
    refine ⟨?_, List.all_eq_true.mp hcond.1.2, hcond.2⟩
    have hie := hcond.1.1
    intro h
    rw [h] at hie
    exact absurd hie (by decide)
  · rw [if_neg hcond]
    simp only [Option.isSome_none, Bool.false_eq_true, false_iff]
    rintro ⟨hne, hdig, hval⟩
    apply hcond
    simp only [Bool.and_eq_true, Bool.not_eq_true', decide_eq_true_eq]
    refine ⟨⟨?_, List.all_eq_true.mpr hdig⟩, hval⟩
    cases d with
    | nil => exact absurd rfl hne
    | cons x xs => rfl

/-- `parseU32` succeeds exactly on the spec-side `u32` shapes. -/
theorem parseU32_isSome_iff (s : Str) :
    (parseU32 s).isSome = true ↔ U32Shape s := by
  have hpu : parseU32 s =
      (if !(if s.head? == some '+' then s.tail else s).isEmpty &&
          (if s.head? == some '+' then s.tail else s).all Char.isDigit &&
          digitsVal (if s.head? == some '+' then s.tail else s) < 2 ^ 32 then
        some (digitsVal (if s.head? == some '+' then s.tail else s))
      else none) := rfl
  rw [hpu, parseU32_digits_cond]
  cases s with
  | nil =>
    simp only [List.head?_nil]
    rw [if_neg (by decide)]
    constructor
    · rintro ⟨hne, -, -⟩; exact absurd rfl hne
    · rintro ⟨ds, hds, hne, -, -⟩
      rcases hds with rfl | h2
      · exact absurd rfl hne
      · exact List.noConfusion h2
  | cons c r =>
    by_cases hc : c = '+'
    · subst hc
      rw [show (('+' :: r : Str).head? == some '+') = true from by simp]
      simp only [if_pos rfl, List.tail_cons]
      constructor
      · rintro ⟨hne, hdig, hval⟩
        exact ⟨r, Or.inr rfl, hne, hdig, hval⟩
      · rintro ⟨ds, hds, hne, hdig, hval⟩
        have hds2 : ds = r := by
          rcases hds with heq | heq
          · exfalso
            cases ds with
            | nil => exact hne rfl
            | cons d0 ds2 =>
              obtain ⟨h0, -⟩ := List.cons.inj heq
              exact isDigit_ne_plus (hdig d0 (by simp)) h0.symm
          · exact ((List.cons.inj heq).2).symm
        subst hds2
        exact ⟨hne, hdig, hval⟩
    · rw [show ((c :: r : Str).head? == some '+') = false from by
          simp only [List.head?_cons, beq_eq_false_iff_ne, ne_eq, Option.some.injEq]
          exact hc]
      simp only [Bool.false_eq_true, if_false]
      constructor
      · rintro ⟨-, hdig, hval⟩
        exact ⟨c :: r, Or.inl rfl, by simp, hdig, hval⟩
      · rintro ⟨ds, hds, hne, hdig, hval⟩
        have hds2 : ds = c :: r := by
          rcases hds with heq | heq
          · exact heq.symm
          · exact absurd (List.cons.inj heq).1 hc
        subst hds2
        exact ⟨by simp, hdig, hval⟩

/-- The `resolve_selector` fast path accepts exactly the spec-side shapes. -/
theorem isElementRef_iff_shape (sel : Str) :
    isElementRefSelector sel = true ↔ FastRefShape sel := by
  cases sel with
  | nil =>
    simp only [isElementRefSelector]
    constructor
    · intro h; exact Bool.noConfusion h
    · rintro ⟨rest, heq, -⟩; exact List.noConfusion heq
  | cons c rest =>
    simp only [isElementRefSelector, Bool.and_eq_true, beq_iff_eq, parseU32_isSome_iff]
    constructor
    · rintro ⟨rfl, h⟩; exact ⟨rest, rfl, h⟩
    · rintro ⟨rest2, heq, h⟩
      obtain ⟨rfl, hr⟩ := List.cons.inj heq
      subst hr
      exact ⟨rfl, h⟩

/-! ### Claim C1 -/

/-- C1 (amended): for every non-empty whitespace-free input `s`,
`normalize_navigation_url` checks its cases in this order: if `s` starts
with `//` the result is `"https:" + s`; otherwise if `s` contains `"://"`
it is returned verbatim; otherwise if `s` has the shape
`host[:port][suffix]` (non-empty boundary-free host, non-empty all-digit
port, suffix empty or starting with `/`, `?` or `#`) the result is
`"https://" + s`; otherwise if `s` matches the scheme pattern
`[A-Za-z][A-Za-z0-9+-.]*:` it is returned verbatim; otherwise the result
is `"https://" + s`.  Every empty or all-whitespace input yields the
invalid-URL error (`Other "Invalid URL: empty input"`). -/
theorem claim_C1_normalize_url :
    (∀ s : Str, (∀ c ∈ s, c.isWhitespace = true) →
        normalizeNavigationUrl s = .error (.Other "Invalid URL: empty input")) ∧
    (∀ s : Str, s ≠ [] → (∀ c ∈ s, c.isWhitespace = false) →
      ((∃ rest, s = '/' :: '/' :: rest) →
          normalizeNavigationUrl s = .ok ("https:".toList ++ s)) ∧
      ((¬ ∃ rest, s = '/' :: '/' :: rest) → ("://".toList) <:+: s →
          normalizeNavigationUrl s = .ok s) ∧
      ((¬ ∃ rest, s = '/' :: '/' :: rest) → ¬ (("://".toList) <:+: s) →
          HostPortShape s →
          normalizeNavigationUrl s = .ok ("https://".toList ++ s)) ∧
      ((¬ ∃ rest, s = '/' :: '/' :: rest) → ¬ (("://".toList) <:+: s) →
          ¬ HostPortShape s → SchemeShape s →
          normalizeNavigationUrl s = .ok s) ∧
      ((¬ ∃ rest, s = '/' :: '/' :: rest) → ¬ (("://".toList) <:+: s) →
          ¬ HostPortShape s → ¬ SchemeShape s →
          normalizeNavigationUrl s = .ok ("https://".toList ++ s))) := by
  constructor
  · intro s h
    unfold normalizeNavigationUrl
    rw [rustTrim_eq_nil h]
    rfl
  · intro s hne hws
    have htr : rustTrim s = s := rustTrim_eq_self hws
    have hie : s.isEmpty = false := by
      cases s with
      | nil => exact absurd rfl hne
      | cons _ _ => rfl
    refine ⟨?_, ?_, ?_, ?_, ?_⟩
    · rintro ⟨rest, rfl⟩
      unfold normalizeNavigationUrl
      rw [htr]
      rw [if_neg (by rw [hie]; exact (by decide : ¬ (false = true)))]
      rw [if_pos ((isPrefixOf_slashes_iff _).mpr ⟨rest, rfl⟩)]
      rfl
    · intro hpre hinf
      unfold normalizeNavigationUrl
      rw [htr]
      rw [if_neg (by rw [hie]; exact (by decide : ¬ (false = true)))]
      rw [if_neg (fun hb => hpre ((isPrefixOf_slashes_iff s).mp hb))]
      rw [if_pos ((containsSeq_iff_substring _ s).mpr hinf)]
    · intro hpre hinf hhp
      unfold normalizeNavigationUrl
      rw [htr]
      rw [if_neg (by rw [hie]; exact (by decide : ¬ (false = true)))]
      rw [if_neg (fun hb => hpre ((isPrefixOf_slashes_iff s).mp hb))]
      rw [if_neg (fun hb => hinf ((containsSeq_iff_substring _ s).mp hb))]
      rw [if_pos ((isHostPort_iff_shape s).mpr hhp)]
    · intro hpre hinf hhp hsch
      unfold normalizeNavigationUrl
      rw [htr]
      rw [if_neg (by rw [hie]; exact (by decide : ¬ (false = true)))]
      rw [if_neg (fun hb => hpre ((isPrefixOf_slashes_iff s).mp hb))]
      rw [if_neg (fun hb => hinf ((containsSeq_iff_substring _ s).mp hb))]
      rw [if_neg (fun hb => hhp ((isHostPort_iff_shape s).mp hb))]
      rw [if_pos ((hasExplicitScheme_iff_shape s).mpr hsch)]
    · intro hpre hinf hhp hsch
      unfold normalizeNavigationUrl
      rw [htr]
      rw [if_neg (by rw [hie]; exact (by decide : ¬ (false = true)))]
      rw [if_neg (fun hb => hpre ((isPrefixOf_slashes_iff s).mp hb))]
      rw [if_neg (fun hb => hinf ((containsSeq_iff_substring _ s).mp hb))]
      rw [if_neg (fun hb => hhp ((isHostPort_iff_shape s).mp hb))]
      rw [if_neg (fun hb => hsch ((hasExplicitScheme_iff_shape s).mp hb))]

/-- C1 witness: the claim's concrete scenario,
`"google.com/search?q=a"` normalizes to `"https://google.com/search?q=a"`,
via the final (default) case of the amended claim. -/
theorem claim_C1_witness :
    normalizeNavigationUrl ("google.com/search?q=a".toList) =
      .ok ("https://google.com/search?q=a".toList) :=
  (claim_C1_normalize_url.2 ("google.com/search?q=a".toList) (by decide)
      (by decide)).2.2.2.2
    (by rintro ⟨rest, hr⟩; exact absurd (List.cons.inj hr).1 (by decide))
    (by decide)
    (fun h => absurd ((isHostPort_iff_shape _).mpr h) (by decide))
    (fun h => absurd ((hasExplicitScheme_iff_shape _).mpr h) (by decide))

/-- C1 counterexample: the claim orders the `"://"` test before the `//`
test, so it requires `"//a://b"` (which contains `"://"`) to be returned
verbatim; the code checks the `//` prefix first and returns
`"https://a://b"`. -/
theorem claim_C1_counterexample :
    ("://".toList) <:+: ("//a://b".toList) ∧
    normalizeNavigationUrl ("//a://b".toList) = .ok ("https://a://b".toList) ∧
    ("https://a://b".toList) ≠ ("//a://b".toList) :=
  ⟨by decide, by decide, by decide⟩

/-! ### Claim C2 -/

/-- C2 (amended): `resolve_selector` takes the no-network fast path exactly
for selectors of the form `e` + a string `u32::from_str` accepts (an
optional `+` sign, digits, value `< 2^32`) — not for the regex `^e\d+$`.
Otherwise a fresh-cache hit is returned with no network call; otherwise,
with an active tab, exactly one snapshot fetch happens and the match is
retried on the fetched tree, a miss yielding
`ElementRefResolution(selector, reason)`; a failing fetch propagates its
error after that single fetch, and a missing active tab fails before any
fetch. -/
theorem claim_C2_resolve_selector :
    ∀ (st : CamofoxSessionM) (fetched : Except ActionbookError ANode) (sel : Str),
      (FastRefShape sel → resolveSelector st fetched sel = (.ok sel, st, 0)) ∧
      (¬ FastRefShape sel → ∀ r, cacheLookup st sel = some r →
          resolveSelector st fetched sel = (.ok r, st, 0)) ∧
      (¬ FastRefShape sel → cacheLookup st sel = none →
          ∀ tab, st.activeTabId = some tab →
          ((∀ tree r, fetched = .ok tree → findMatching tree sel = some r →
              resolveSelector st fetched sel =
                (.ok r, { st with snapshotCache := some ⟨tree, true⟩ }, 1)) ∧
           (∀ tree, fetched = .ok tree → findMatching tree sel = none →
              resolveSelector st fetched sel =
                (.error (.ElementRefResolution sel
                    "Element not found in accessibility tree"),
                 { st with snapshotCache := some ⟨tree, true⟩ }, 1)) ∧
           (∀ e, fetched = .error e →
              resolveSelector st fetched sel = (.error e, st, 1)))) ∧
      (¬ FastRefShape sel → cacheLookup st sel = none → st.activeTabId = none →
          resolveSelector st fetched sel =
            (.error (.BrowserOperation "No active tab"), st, 0)) := by
  intro st fetched sel
  refine ⟨?_, ?_, ?_, ?_⟩
  · intro hf
    unfold resolveSelector
    rw [if_pos ((isElementRef_iff_shape sel).mpr hf)]
  · intro hf r hcl
    unfold resolveSelector
    rw [if_neg (fun hb => hf ((isElementRef_iff_shape sel).mp hb)), hcl]
  · intro hf hcl tab htab
    have hact : activeTab st = .ok tab := by
      unfold activeTab
      rw [htab]
    refine ⟨?_, ?_, ?_⟩
    · intro tree r hfet hfm
      unfold resolveSelector
      rw [if_neg (fun hb => hf ((isElementRef_iff_shape sel).mp hb)), hcl]
      unfold refreshSnapshot
      rw [hact, hfet]
      simp only []
      rw [show ({ st with snapshotCache := some ⟨tree, true⟩ } :
            CamofoxSessionM).snapshotCache.bind (fun c => findMatching c.tree sel) =
          findMatching tree sel from rfl, hfm]
    · intro tree hfet hfm
      unfold resolveSelector
      rw [if_neg (fun hb => hf ((isElementRef_iff_shape sel).mp hb)), hcl]
      unfold refreshSnapshot
      rw [hact, hfet]
      simp only []
      rw [show ({ st with snapshotCache := some ⟨tree, true⟩ } :
            CamofoxSessionM).snapshotCache.bind (fun c => findMatching c.tree sel) =
          findMatching tree sel from rfl, hfm]
    · intro e hfet
      unfold resolveSelector
      rw [if_neg (fun hb => hf ((isElementRef_iff_shape sel).mp hb)), hcl]
      unfold refreshSnapshot
      rw [hact, hfet]
  · intro hf hcl htab
    have hact : activeTab st = .error (.BrowserOperation "No active tab") := by
      unfold activeTab
      rw [htab]
    unfold resolveSelector
    rw [if_neg (fun hb => hf ((isElementRef_iff_shape sel).mp hb)), hcl]
    unfold refreshSnapshot
    rw [hact]

/-- C2 witness: `"e1"` is a fast-path selector and is returned verbatim with
no network call. -/
theorem claim_C2_witness :
    resolveSelector ⟨none, none⟩ (.error (.Other "offline")) ("e1".toList) =
      (.ok ("e1".toList), (⟨none, none⟩ : CamofoxSessionM), 0) :=
  (claim_C2_resolve_selector ⟨none, none⟩ (.error (.Other "offline"))
      ("e1".toList)).1
    ((isElementRef_iff_shape ("e1".toList)).mp (by decide))

/-- C2 counterexample: `"e+0"` does not match the claim's regex `^e\d+$`
(so with an empty cache the claim requires exactly one snapshot fetch),
yet `resolve_selector` returns it verbatim with zero network calls,
because Rust `u32::from_str` accepts a leading `+`. -/
theorem claim_C2_counterexample :
    matchesERegex ("e+0".toList) = false ∧
    resolveSelector ⟨some ("t1".toList), none⟩ (.error (.Other "offline"))
        ("e+0".toList) =
      (.ok ("e+0".toList), (⟨some ("t1".toList), none⟩ : CamofoxSessionM), 0) :=
  ⟨by decide, rfl⟩

/-! ### Claim C3 -/

/-- C3 (amended): whenever `click`, `type_text`, `navigate` or `create_tab`
returns successfully (`Ok`), the snapshot cache is `None`; on an error
return the cache may instead retain a snapshot fetched during selector
resolution (the invalidation line sits after the fallible client call, so
`?` skips it). -/
theorem claim_C3_cache_invalidation :
    (∀ (st : CamofoxSessionM) (fetched : Except ActionbookError ANode)
        (clicked : Except ActionbookError Unit) (sel : Str) (u : Unit)
        (st2 : CamofoxSessionM),
        sessionClick st fetched clicked sel = (.ok u, st2) →
        st2.snapshotCache = none) ∧
    (∀ (st : CamofoxSessionM) (fetched : Except ActionbookError ANode)
        (typed : Except ActionbookError Unit) (sel text : Str) (u : Unit)
        (st2 : CamofoxSessionM),
        sessionTypeText st fetched typed sel text = (.ok u, st2) →
        st2.snapshotCache = none) ∧
    (∀ (st : CamofoxSessionM) (navigated : Except ActionbookError Unit)
        (url : Str) (u : Unit) (st2 : CamofoxSessionM),
        sessionNavigate st navigated url = (.ok u, st2) →
        st2.snapshotCache = none) ∧
    (∀ (st : CamofoxSessionM) (created : Except ActionbookError Str)
        (url id : Str) (st2 : CamofoxSessionM),
        sessionCreateTab st created url = (.ok id, st2) →
        st2.snapshotCache = none) := by
  refine ⟨?_, ?_, ?_, ?_⟩
  · intro st fetched clicked sel u st2 h
    unfold sessionClick at h
    split at h
    · simp at h
    · split at h
      · simp at h
      · split at h
        · simp at h
        · simp only [Prod.mk.injEq] at h
          rw [← h.2]
  · intro st fetched typed sel text u st2 h
    unfold sessionTypeText at h
    split at h
    · simp at h
    · split at h
      · simp at h
      · split at h
        · simp at h
        · simp only [Prod.mk.injEq] at h
          rw [← h.2]
  · intro st navigated url u st2 h
    unfold sessionNavigate at h
    split at h
    · simp at h
    · split at h
      · simp at h
      · simp only [Prod.mk.injEq] at h
        rw [← h.2]
  · intro st created url id st2 h
    unfold sessionCreateTab at h
    split at h
    · simp at h
    · simp only [Prod.mk.injEq] at h
      rw [← h.2]

/-- C3 witness: a concrete successful click (resolving `#btn` via one fetch
of `btnNode`) ends with the cache cleared. -/
theorem claim_C3_witness :
    ((⟨some ("t1".toList), none⟩ : CamofoxSessionM) : CamofoxSessionM).snapshotCache
      = none :=
  claim_C3_cache_invalidation.1 ⟨some ("t1".toList), none⟩ (.ok btnNode) (.ok ())
    ("#btn".toList) () ⟨some ("t1".toList), none⟩ rfl

/-- C3 counterexample: when `client.click` fails after `resolve_selector`
refreshed the snapshot, `click` returns with the cache still populated —
the claim's unconditional "cache is None before returning" fails on this
error return. -/
theorem claim_C3_counterexample :
    sessionClick ⟨some ("t1".toList), none⟩ (.ok btnNode)
        (.error (.BrowserOperation "network error")) ("#btn".toList) =
      (.error (.BrowserOperation "network error"),
       (⟨some ("t1".toList), some ⟨btnNode, true⟩⟩ : CamofoxSessionM)) ∧
    ((⟨some ("t1".toList), some ⟨btnNode, true⟩⟩ :
        CamofoxSessionM)).snapshotCache ≠ none :=
  ⟨rfl, fun h => Option.noConfusion h⟩

/-! ### Claims C4 and C10: the depth-first matcher -/

mutual
theorem noFirstMatch_node (sel : Str) :
    ∀ n : ANode, firstMatchNode n sel = none → findMatching n sel = none
  | .mk role name ref children value foc => by
    intro h1
    unfold firstMatchNode at h1
    unfold findMatching
    by_cases hm : matchesSelector (.mk role name ref children value foc) sel
    · rw [if_pos hm] at h1
      exact Option.noConfusion h1
    · rw [if_neg hm] at h1
      rw [if_neg hm]
      exact noFirstMatch_children sel children h1

theorem noFirstMatch_children (sel : Str) :
    ∀ c : Option ANodeList, firstMatchChildren c sel = none →
      findMatchingInChildren c sel = none
  | none => by intro _; rfl
  | some cs => by
    intro h1
    unfold firstMatchChildren at h1
    unfold findMatchingInChildren
    exact noFirstMatch_list sel cs h1

theorem noFirstMatch_list (sel : Str) :
    ∀ l : ANodeList, firstMatchList l sel = none → findMatchingInList l sel = none
  | .nil => by intro _; rfl
  | .cons c cs => by
    intro h1
    unfold firstMatchList at h1
    unfold findMatchingInList
    cases hfm : firstMatchNode c sel with
    | some m => rw [hfm] at h1; exact Option.noConfusion h1
    | none =>
      rw [hfm] at h1
      rw [noFirstMatch_node sel c hfm]
      exact noFirstMatch_list sel cs h1

theorem firstMatch_wins_node (sel : Str) :
    ∀ (n : ANode) (m : ANode) (r : Str), firstMatchNode n sel = some m →
      m.elementRef = some r → findMatching n sel = some r
  | .mk role name ref children value foc, m, r => by
    intro h1 h2
    unfold firstMatchNode at h1
    unfold findMatching
    by_cases hm : matchesSelector (.mk role name ref children value foc) sel
    · rw [if_pos hm] at h1
      rw [if_pos hm]
      obtain rfl := Option.some.inj h1
      exact h2
    · rw [if_neg hm] at h1
      rw [if_neg hm]
      exact firstMatch_wins_children sel children m r h1 h2

theorem firstMatch_wins_children (sel : Str) :
    ∀ (c : Option ANodeList) (m : ANode) (r : Str),
      firstMatchChildren c sel = some m → m.elementRef = some r →
      findMatchingInChildren c sel = some r
  | none, m, r => by
    intro h1 _
    exact Option.noConfusion h1
  | some cs, m, r => by
    intro h1 h2
    unfold firstMatchChildren at h1
    unfold findMatchingInChildren
    exact firstMatch_wins_list sel cs m r h1 h2

theorem firstMatch_wins_list (sel : Str) :
    ∀ (l : ANodeList) (m : ANode) (r : Str), firstMatchList l sel = some m →
      m.elementRef = some r → findMatchingInList l sel = some r
  | .nil, m, r => by
    intro h1 _
    exact Option.noConfusion h1
  | .cons c cs, m, r => by
    intro h1 h2
    unfold firstMatchList at h1
    unfold findMatchingInList
    cases hfm : firstMatchNode c sel with
    | some m2 =>
      rw [hfm] at h1
      obtain rfl := Option.some.inj h1
      rw [firstMatch_wins_node sel c m2 r hfm h2]
    | none =>
      rw [hfm] at h1
      rw [noFirstMatch_node sel c hfm]
      exact firstMatch_wins_list sel cs m r h1 h2
end

/-- C4: `find_matching` is a depth-first walk where the first matching node
wins: whenever the first preorder node satisfying `matches_selector` carries
an `element_ref`, that ref is the result; in particular, on the example
tree, `"#login-btn"` and `"button"` both resolve to `"e3"`. -/
theorem claim_C4_first_match_wins :
    (∀ (sel : Str) (n m : ANode) (r : Str),
        firstMatchNode n sel = some m → m.elementRef = some r →
        findMatching n sel = some r) ∧
    findMatching exampleTree ("#login-btn".toList) = some ("e3".toList) ∧
    findMatching exampleTree ("button".toList) = some ("e3".toList) :=
  ⟨fun sel n m r => firstMatch_wins_node sel n m r, by decide, by decide⟩

/-- C4 witness: the general first-match property applied to the concrete
node `btnNode` and selector `#btn`. -/
theorem claim_C4_witness :
    findMatching btnNode ("#btn".toList) = some ("e1".toList) :=
  claim_C4_first_match_wins.1 ("#btn".toList) btnNode btnNode ("e1".toList) rfl rfl

/-- C10: a ref-less first match hides its subtree: if a node matches a
selector and has no `element_ref`, `find_matching` returns `None` for it
without examining its children; consequently `resolve_selector` fails with
`ElementRefResolution` on `prunedTree` even though its child matches
`"button"` and carries ref `"e5"`. -/
theorem claim_C10_refless_match_prunes :
    (∀ (n : ANode) (sel : Str), matchesSelector n sel = true →
        n.elementRef = none → findMatching n sel = none) ∧
    findMatching prunedTree ("button".toList) = none ∧
    (matchesSelector prunedTree ("button".toList) = true ∧
     prunedTree.children = some (.cons
       (.mk ("button".toList) (some ("inner".toList)) (some ("e5".toList))
         none none none) .nil) ∧
     matchesSelector
       (.mk ("button".toList) (some ("inner".toList)) (some ("e5".toList))
         none none none) ("button".toList) = true ∧
     ANode.elementRef
       (.mk ("button".toList) (some ("inner".toList)) (some ("e5".toList))
         none none none) = some ("e5".toList)) ∧
    resolveSelector ⟨some ("t1".toList), some ⟨prunedTree, true⟩⟩
        (.ok prunedTree) ("button".toList) =
      (.error (.ElementRefResolution ("button".toList)
          "Element not found in accessibility tree"),
       (⟨some ("t1".toList), some ⟨prunedTree, true⟩⟩ : CamofoxSessionM), 1) := by
  refine ⟨?_, by decide, ⟨by decide, rfl, by decide, rfl⟩, rfl⟩
  intro n sel hm hr
  cases n with
  | mk role name ref children value foc =>
    unfold findMatching
    rw [if_pos hm]
    exact hr

/-- C10 witness: the pruning property applied to the concrete `prunedTree`
and selector `button`. -/
theorem claim_C10_witness :
    findMatching prunedTree ("button".toList) = none :=
  claim_C10_refless_match_prunes.1 prunedTree ("button".toList) (by decide) rfl

/-! ### Claim C5 -/

/-- C5: with an extension connected, two CLI clients `cA ≠ cB` issue requests
(ids `nA`, `nB`, possibly equal); the bridge forwards them to the extension
under the fresh distinct bridge ids `k` and `k+1` with methods and params
preserved; the extension answers both (in either order, `swapped` choosing
the interleaving), and each CLI receives exactly one response carrying its
own original id and the payload the extension sent for its own request —
no crosstalk. -/
theorem claim_C5_bridge_roundtrip :
    ∀ (P R : Type) (k cA cB nA nB : Nat) (mA mB : Str) (pA pB : P) (qA qB : R)
      (swapped : Bool), cA ≠ cB →
    ∀ outs : List (BridgeOut P R),
      outs = (processBridgeEvents ⟨k, [], true⟩
        ([BridgeEvent.cliRequest cA nA mA pA,
          BridgeEvent.cliRequest cB nB mB pB] ++
         (if swapped then
            [BridgeEvent.extensionResponse (k + 1) qB,
             BridgeEvent.extensionResponse k qA]
          else
            [BridgeEvent.extensionResponse k qA,
             BridgeEvent.extensionResponse (k + 1) qB]))).2 →
      outputsToExtension outs = [⟨k, mA, pA⟩, ⟨k + 1, mB, pB⟩] ∧
      outputsToCli cA outs = [⟨nA, qA⟩] ∧
      outputsToCli cB outs = [⟨nB, qB⟩] := by
  intro P R k cA cB nA nB mA mB pA pB qA qB swapped hne outs houts
  have h1 : ((k + 1) == k) = false := by
    rw [beq_eq_false_iff_ne]
    exact Nat.succ_ne_self k
  have h4 : (cB == cA) = false := by
    rw [beq_eq_false_iff_ne]
    exact Ne.symm hne
  have h5 : (cA == cB) = false := by
    rw [beq_eq_false_iff_ne]
    exact hne
  subst houts
  cases swapped <;>
    simp [processBridgeEvents, handleCliRequest, handleExtensionResponse,
      lookupPending, erasePending, outputsToCli, outputsToExtension,
      h1, h4, h5]

/-- C5 witness: two CLIs (clients 0 and 1) both send id 1; with the
responses arriving in swapped order, client 0 receives exactly
`{id 1, payload 10}` and client 1 exactly `{id 1, payload 20}`. -/
theorem claim_C5_witness :
    outputsToExtension ((processBridgeEvents ⟨7, [], true⟩
        ([BridgeEvent.cliRequest 0 1 ("Page.navigate".toList) (),
          BridgeEvent.cliRequest 1 1 ("Page.navigate".toList) ()] ++
         (if true then
            [BridgeEvent.extensionResponse (7 + 1) (20 : Nat),
             BridgeEvent.extensionResponse 7 (10 : Nat)]
          else
            [BridgeEvent.extensionResponse 7 (10 : Nat),
             BridgeEvent.extensionResponse (7 + 1) (20 : Nat)]))).2) =
      [⟨7, ("Page.navigate".toList), ()⟩, ⟨7 + 1, ("Page.navigate".toList), ()⟩] ∧
    outputsToCli 0 ((processBridgeEvents ⟨7, [], true⟩
        ([BridgeEvent.cliRequest 0 1 ("Page.navigate".toList) (),
          BridgeEvent.cliRequest 1 1 ("Page.navigate".toList) ()] ++
         (if true then
            [BridgeEvent.extensionResponse (7 + 1) (20 : Nat),
             BridgeEvent.extensionResponse 7 (10 : Nat)]
          else
            [BridgeEvent.extensionResponse 7 (10 : Nat),
             BridgeEvent.extensionResponse (7 + 1) (20 : Nat)]))).2) = [⟨1, 10⟩] ∧
    outputsToCli 1 ((processBridgeEvents ⟨7, [], true⟩
        ([BridgeEvent.cliRequest 0 1 ("Page.navigate".toList) (),
          BridgeEvent.cliRequest 1 1 ("Page.navigate".toList) ()] ++
         (if true then
            [BridgeEvent.extensionResponse (7 + 1) (20 : Nat),
             BridgeEvent.extensionResponse 7 (10 : Nat)]
          else
            [BridgeEvent.extensionResponse 7 (10 : Nat),
             BridgeEvent.extensionResponse (7 + 1) (20 : Nat)]))).2) = [⟨1, 20⟩] :=
  claim_C5_bridge_roundtrip Unit Nat 7 0 1 1 1 ("Page.navigate".toList)
    ("Page.navigate".toList) () () 10 20 true (by decide) _ rfl

/-! ### Claim C6 -/

/-- C6 (amended): of the claim's unsupported actions only `eval` is even
routable to the Camoufox backend (`BrowserDriver::execute_js`); it returns
`BrowserOperation("JavaScript execution not supported in Camoufox
backend")` for every script — not `Unsupported(action, "camofox")`. -/
theorem claim_C6_camofox_eval_unsupported :
    ∀ (cdpEval : Except ActionbookError Str) (script : Str),
      executeJs .camofox cdpEval script =
        .error (.BrowserOperation
          "JavaScript execution not supported in Camoufox backend") :=
  fun _ _ => rfl

/-- C6 witness: the unsupported-eval error on a concrete script. -/
theorem claim_C6_witness :
    executeJs .camofox (.ok ("2".toList)) ("1+1".toList) =
      .error (.BrowserOperation
        "JavaScript execution not supported in Camoufox backend") :=
  claim_C6_camofox_eval_unsupported (.ok ("2".toList)) ("1+1".toList)

/-- C6 counterexample: invoking `eval` on the Camoufox backend yields the
`BrowserOperation` error, which is not the `Unsupported("eval", "camofox")`
value the claim requires. -/
theorem claim_C6_counterexample :
    executeJs .camofox (.ok []) ("1+1".toList) =
      .error (.BrowserOperation
        "JavaScript execution not supported in Camoufox backend") ∧
    (Except.error (ActionbookError.Unsupported "eval" "camofox") :
        Except ActionbookError Str) ≠
      executeJs .camofox (.ok []) ("1+1".toList) :=
  ⟨rfl, by decide⟩

/-! ### Claim C7 -/

/-- C7: `close` in extension mode is best-effort detach.  When the bridge is
not running, the command succeeds after the probe alone — no daemon spawn
(hence no `bridge.port`/`bridge.token` state files) and no routed call.
When the bridge is running, exactly one `Extension.detachTab` is sent and
the command succeeds for every detach outcome (`w.detachResult` is
universally quantified). -/
theorem claim_C7_close_extension :
    ∀ w : World,
      (w.bridgeRunning = false →
        runBrowserCommand .extension false false .close w =
          ⟨[.probeBridge], .ok (), none⟩) ∧
      (w.bridgeRunning = true →
        runBrowserCommand .extension false false .close w =
          ⟨[.probeBridge, .sendBridgeCommand "Extension.detachTab"],
            .ok (), none⟩) ∧
      Eff.spawnBridgeDaemon ∉ (runBrowserCommand .extension false false .close w).effs := by
  intro w
  refine ⟨?_, ?_, ?_⟩
  · intro h
    simp [runBrowserCommand, closeExtension, h]
  · intro h
    simp [runBrowserCommand, closeExtension, h]
  · cases h : w.bridgeRunning <;>
      simp [runBrowserCommand, closeExtension, h]

/-- C7 witness: with a failing detach oracle, close succeeds both with the
bridge down (probe only) and with the bridge up (one detach sent). -/
theorem claim_C7_witness :
    runBrowserCommand .extension false false .close
        ⟨false, false, .error (.Other "detach failed"), .ok (), .ok (), .ok (), .ok ()⟩ =
      ⟨[.probeBridge], .ok (), none⟩ ∧
    runBrowserCommand .extension false false .close
        ⟨true, false, .error (.Other "detach failed"), .ok (), .ok (), .ok (), .ok ()⟩ =
      ⟨[.probeBridge, .sendBridgeCommand "Extension.detachTab"], .ok (), none⟩ :=
  ⟨(claim_C7_close_extension _).1 rfl, (claim_C7_close_extension _).2.1 rfl⟩

/-! ### Claim C8 -/

/-- C8: across every dispatch of a `browser` command, `stop_bridge` is
invoked iff `create_backend` returned `auto_started = true` and the command
is `close`.  (Both sides are in fact never true for the same run: the
extension-mode `close` short-circuits to `close_extension` before any
backend is created, and isolated backends always report
`auto_started = false` — so in particular a `close` with
`auto_started = false` never stops the daemon.) -/
theorem claim_C8_stop_bridge_accounting :
    ∀ (mode : BrowserModeM) (profileGiven cdpFlagGiven : Bool) (cmd : BrowserCmd)
      (w : World),
      Eff.stopBridge ∈ (runBrowserCommand mode profileGiven cdpFlagGiven cmd w).effs ↔
      ((runBrowserCommand mode profileGiven cdpFlagGiven cmd w).autoStarted = some true ∧
        cmd = .close) := by
  intro mode profileGiven cdpFlagGiven cmd w
  obtain ⟨br, so, dr, bcr, cor, sr, ar⟩ := w
  cases mode <;> cases profileGiven <;> cases cmd <;> cases br <;> cases so <;>
    cases cdpFlagGiven <;> cases cor <;> cases bcr <;>
    simp [runBrowserCommand, closeExtension, ensureBridgeRunning, createBackend,
      closeCommand]

/-! ### Claim C9 -/

/-- C9 (amended): for every coordinate pair outside the viewport bounds,
the `inspect` command prints the out-of-bounds object
`{"success": false, "message": …}` (no `found` field) and returns success
without ever invoking the backend's inspect operation. -/
theorem claim_C9_inspect_out_of_bounds :
    ∀ (vw vh : Nat) (inspectResult : Except ActionbookError JVal) (x y : ℚ),
      (x < 0 ∨ x > (vw : ℚ) ∨ y < 0 ∨ y > (vh : ℚ)) →
      inspectCommand (.ok (vw, vh)) inspectResult x y =
        (.ok [("success", .bool false),
              ("message", .str (outOfBoundsMsg x y vw vh))], false) := by
  intro vw vh inspectResult x y h
  rcases h with h | h | h | h <;> simp [inspectCommand, h]

/-- C9 witness: `inspect(-1, 0)` against an 800×600 viewport prints the
out-of-bounds object without calling the backend. -/
theorem claim_C9_witness :
    inspectCommand (.ok (800, 600)) (.ok (.passthrough 0)) (-1) 0 =
      (.ok [("success", .bool false),
            ("message", .str (outOfBoundsMsg (-1) 0 800 600))], false) :=
  claim_C9_inspect_out_of_bounds 800 600 (.ok (.passthrough 0)) (-1) 0
    (Or.inl (by norm_num))

/-- C9 counterexample: the out-of-bounds object printed for `inspect(-1,0)`
has no `found` key at all, so it is not the `{found:false}` object the
claim names (its keys are `success` and `message`). -/
theorem claim_C9_counterexample :
    inspectCommand (.ok (800, 600)) (.ok (.passthrough 0)) (-1) 0 =
      (.ok [("success", .bool false),
            ("message", .str (outOfBoundsMsg (-1) 0 800 600))], false) ∧
    jsonLookup "found"
        [("success", JVal.bool false),
         ("message", .str (outOfBoundsMsg (-1) 0 800 600))] = none ∧
    (none : Option JVal) ≠ some (.bool false) := by
  refine ⟨?_, rfl, by simp⟩
  simp [inspectCommand, show (-1 : ℚ) < 0 by norm_num]

end Actionbook
